import Mathlib

/-!
Verification of the python-nubia command engine against its specification.

The definitions below are a shallow embedding of the relevant parts of the
repository:
  * `nubia/internal/parser.py`   — the interactive grammar parser
  * `nubia/internal/cmdbase.py`  — `AutoCommand.run_interactive` / `run_cli`
  * `nubia/internal/typing/builder.py` — `apply_typing`
  * `nubia/internal/context.py`  — `Context.set_verbose`
  * `nubia/internal/registry.py` — `CommandsRegistry.find_approx` and
    `dispatch_message`
  * `nubia/internal/io/eventbus.py` — `Listener.react`
  * `nubia/internal/blackcmd.py` — `CommandBlacklist`
  * `nubia/internal/nubia.py`    — the exit-code mapping in `Nubia.run`
-/

namespace Nubia

/-- A parsed interactive value.  Mirrors the dynamic values produced by the
pyparsing grammar in `parser.py`: strings, booleans, ints, floats, lists and
dicts.  Python floats are modelled as rationals; every numeric literal the
grammar accepts is an exact decimal, so this is faithful on all grammar
output. -/
inductive PyValue : Type where
  | str (s : String)
  | bool (b : Bool)
  | int (n : Int)
  | float (q : ℚ)
  | list (xs : List PyValue)
  | dict (kvs : List (String × PyValue))

/-- Numeric view of a value: Python treats `bool` as a numeric type, so
`True == 1 == 1.0`. -/
def pyNum? : PyValue → Option ℚ
  | .bool b => some (if b then 1 else 0)
  | .int n => some (n : ℚ)
  | .float q => some q
  | _ => none

mutual

/-- Python `==` on parsed values: numeric cross-type equality, strings by
content, lists elementwise.  (Python compares dicts as unordered mappings;
the pairwise comparison here is only ever applied by the `choices` check,
which no command in the claims uses with dict values.) -/
def pyEq : PyValue → PyValue → Bool
  | .str a, .str b => a = b
  | .list xs, .list ys => pyEqList xs ys
  | .dict xs, .dict ys => pyEqKVs xs ys
  | a, b =>
      match pyNum? a, pyNum? b with
      | some x, some y => x = y
      | _, _ => false

def pyEqList : List PyValue → List PyValue → Bool
  | [], [] => true
  | x :: xs, y :: ys => pyEq x y && pyEqList xs ys
  | _, _ => false

def pyEqKVs : List (String × PyValue) → List (String × PyValue) → Bool
  | [], [] => true
  | (k, v) :: xs, (k', v') :: ys => k = k' && pyEq v v' && pyEqKVs xs ys
  | _, _ => false

end

/-- Python `dict` with string keys, preserving insertion order.  `dictUpsert`
models `d[k] = v` (update in place if present, else append), matching CPython
dict semantics. -/
abbrev PyDict := List (String × PyValue)

def dictUpsert (d : PyDict) (k : String) (v : PyValue) : PyDict :=
  match d with
  | [] => [(k, v)]
  | (k', v') :: rest =>
      if k' = k then (k', v) :: rest else (k', v') :: dictUpsert rest k v

/-- Models `d1.update(d2)` — Python dict update, entry by entry in order. -/
def dictUpdate (d : PyDict) (other : List (String × PyValue)) : PyDict :=
  other.foldl (fun acc kv => dictUpsert acc kv.1 kv.2) d

/-- Models `k in d`. -/
def dictContains (d : PyDict) (k : String) : Bool :=
  d.any (fun kv => kv.1 = k)

/-- Models `d.get(k)`. -/
def dictGet? (d : PyDict) (k : String) : Option PyValue :=
  (d.find? (fun kv => kv.1 = k)).map (fun kv => kv.2)

/-- Models `del d[k]` (total: identity when the key is absent; the only deletion in
the modelled code is guarded by a containment check). -/
def dictErase (d : PyDict) (k : String) : PyDict :=
  d.filter (fun kv => kv.1 ≠ k)

/-- Models `list(d.keys())`. -/
def dictKeys (d : PyDict) : List String :=
  d.map (fun kv => kv.1)

/-- Builds a Python dict from a key/value sequence, later assignments
overwriting earlier ones (this is `ParseResults.asDict()` on the `kv`
section, and also the dict comprehensions in `run_interactive`). -/
def asDict (kvs : List (String × PyValue)) : PyDict :=
  kvs.foldl (fun acc kv => dictUpsert acc kv.1 kv.2) []

/-! ## The interactive grammar (`nubia/internal/parser.py`)

The grammar is embedded as a character-level recursive-descent parser with
pyparsing's effective semantics: every token skips leading whitespace
(pyparsing's default whitespace chars are space, newline and tab),
`MatchFirst` commits to the first successful alternative, and a failing
element inside `ZeroOrMore` ends the repetition without consuming input.
The top-level `Or` in `value = list_value ^ single_value ^ dict_value` is
realised by first-character dispatch: a list starts with the character
LBRACK and a dict with LBRACE, neither of which can start a scalar, so the
three alternatives never overlap and longest-match equals first-match. -/

abbrev Input := List Char

/-- pyparsing `ParserElement.DEFAULT_WHITE_CHARS = " \n\t"`. -/
def isWsChar (c : Char) : Bool := c = ' ' ∨ c = '\n' ∨ c = '\t'

def skipWs : Input → Input
  | [] => []
  | c :: rest => if isWsChar c then skipWs rest else c :: rest

/-- Maximal munch of a character class (pyparsing `Word` body). -/
def takeWhileC (p : Char → Bool) : Input → List Char × Input
  | [] => ([], [])
  | c :: rest =>
      if p c then
        let (tk, rem) := takeWhileC p rest
        (c :: tk, rem)
      else ([], c :: rest)

def isAsciiAlphaC (c : Char) : Bool :=
  ('a' ≤ c ∧ c ≤ 'z') ∨ ('A' ≤ c ∧ c ≤ 'Z')

def isDigitC (c : Char) : Bool := '0' ≤ c ∧ c ≤ '9'

/-- Start/rest characters of `identifier = Word(alphas + "_-", alphanums + "_-")`. -/
def isIdentStart (c : Char) : Bool := isAsciiAlphaC c ∨ c = '_' ∨ c = '-'

def isIdentRest (c : Char) : Bool :=
  isAsciiAlphaC c ∨ isDigitC c ∨ c = '_' ∨ c = '-'

/-- Membership in `allowed_symbols_in_string` from parser.py. -/
def isAllowedSymbol (c : Char) : Bool :=
  c = '-' ∨ c = '_' ∨ c = '/' ∨ c = '#' ∨ c = '@' ∨ c = '£' ∨ c = '$' ∨
  c = '€' ∨ c = '%' ∨ c = '*' ∨ c = '+' ∨ c = '~' ∨ c = '|' ∨ c = '<' ∨
  c = '>' ∨ c = '?' ∨ c = '.'

/-- Body characters of `unquoted_string = Word(alphanums + allowed_symbols)`. -/
def isUnquotedChar (c : Char) : Bool :=
  isAsciiAlphaC c ∨ isDigitC c ∨ isAllowedSymbol c

def pIdentifier (s : Input) : Option (String × Input) :=
  match skipWs s with
  | [] => none
  | c :: rest =>
      if isIdentStart c then
        let (tk, rem) := takeWhileC isIdentRest rest
        some (String.mk (c :: tk), rem)
      else none

/-- Consume a literal token after skipping leading whitespace. -/
def pLiteral (lit : String) (s : Input) : Option Input :=
  let s := skipWs s
  if lit.toList.isPrefixOf s then some (s.drop lit.length) else none

def natOfDigits (ds : List Char) : Nat :=
  ds.foldl (fun a c => a * 10 + (c.toNat - '0'.toNat)) 0

/-- Models `int_value = Regex(r"\-?\d+")` with the `int` transform. -/
def pInt (s : Input) : Option (PyValue × Input) :=
  let s := skipWs s
  let (neg, s1) := match s with
    | '-' :: rest => (true, rest)
    | _ => (false, s)
  match takeWhileC isDigitC s1 with
  | ([], _) => none
  | (ds, rem) =>
      let n : Int := natOfDigits ds
      some (.int (if neg then -n else n), rem)

def pow10 : Nat → Nat
  | 0 => 1
  | n + 1 => 10 * pow10 n

/-- The exact rational value of the decimal literal
`[-] ip "." fp [e ex]`, built through `mkRat` on integer arithmetic (so the
kernel can evaluate it). -/
def decimalToRat (neg : Bool) (ip fp : List Char) (ex : Int) : ℚ :=
  let mNat : Nat := natOfDigits ip * pow10 fp.length + natOfDigits fp
  let m : Int := if neg then -(mNat : Int) else (mNat : Int)
  match ex with
  | .ofNat e => mkRat (m * (pow10 e : Int)) (pow10 fp.length)
  | .negSucc e => mkRat m (pow10 (fp.length + e + 1))

/-- Models `float_value = Regex(r"\-?\d+\.\d*([eE]\d+)?")` with the `float`
transform.  The exponent group carries no sign, exactly as in the regex. -/
def pFloat (s : Input) : Option (PyValue × Input) :=
  let s := skipWs s
  let (neg, s1) := match s with
    | '-' :: rest => (true, rest)
    | _ => (false, s)
  match takeWhileC isDigitC s1 with
  | ([], _) => none
  | (ip, rem1) =>
      match rem1 with
      | '.' :: rem2 =>
          let (fp, rem3) := takeWhileC isDigitC rem2
          let (ex, rem4) : Nat × Input :=
            match rem3 with
            | 'e' :: rem' =>
                match takeWhileC isDigitC rem' with
                | ([], _) => (0, rem3)
                | (eds, rem'') => (natOfDigits eds, rem'')
            | 'E' :: rem' =>
                match takeWhileC isDigitC rem' with
                | ([], _) => (0, rem3)
                | (eds, rem'') => (natOfDigits eds, rem'')
            | _ => (0, rem3)
          some (.float (decimalToRat neg ip fp (ex : Int)), rem4)
      | _ => none

/-- Models `bool_value`: the four literals, with `x in ["True", "true"]` as the
transform.  At any position at most one of the four literals can match, so
pyparsing's longest-match `Or` reduces to trying them in turn. -/
def pBool (s : Input) : Option (PyValue × Input) :=
  match pLiteral "True" s with
  | some rem => some (.bool true, rem)
  | none =>
  match pLiteral "true" s with
  | some rem => some (.bool true, rem)
  | none =>
  match pLiteral "False" s with
  | some rem => some (.bool false, rem)
  | none =>
  match pLiteral "false" s with
  | some rem => some (.bool false, rem)
  | none => none

/-- Models the `_str_transform`, namely stripping every quote character applied to quoted strings: remove every
leading and trailing quote character of either kind. -/
def stripQuotes (s : List Char) : List Char :=
  let isQ : Char → Bool := fun c => c = '"' ∨ c = '\''
  ((s.dropWhile isQ).reverse.dropWhile isQ).reverse

/-- Models `quoted_string = pp.quotedString` (single- or double-quoted, not spanning
newlines) followed by the strip transform.  Backslash escapes and doubled
quotes, which pyparsing also accepts inside quoted strings, are not used by
any claim input and are not modelled. -/
def pQuoted (s : Input) : Option (PyValue × Input) :=
  match skipWs s with
  | q :: rest =>
      if q = '"' ∨ q = '\'' then
        let (inner, rem) := takeWhileC (fun c => c ≠ q ∧ c ≠ '\n') rest
        match rem with
        | c :: rem' =>
            if c = q then
              some (.str (String.mk (stripQuotes (q :: (inner ++ [q])))), rem')
            else none
        | [] => none
      else none
  | [] => none

/-- Models `unquoted_string` with the `str` transform (strip is the identity here:
quote characters are not in the word's alphabet). -/
def pUnquoted (s : Input) : Option (PyValue × Input) :=
  match takeWhileC isUnquotedChar (skipWs s) with
  | ([], _) => none
  | (tk, rem) => some (.str (String.mk tk), rem)

/-- Models `string_value = quoted_string | unquoted_string` (MatchFirst). -/
def pStringValue (s : Input) : Option (PyValue × Input) :=
  match pQuoted s with
  | some r => some r
  | none => pUnquoted s

/-- Models `single_value = bool_value | float_value | string_value | int_value`.
MatchFirst: the alternatives are tried in exactly this order and the first
success commits. -/
def pSingle (s : Input) : Option (PyValue × Input) :=
  match pBool s with
  | some r => some r
  | none =>
  match pFloat s with
  | some r => some r
  | none =>
  match pStringValue s with
  | some r => some r
  | none => pInt s

/-- The element sequence of
`list_value = '[' + Optional(delimitedList(single_value)) + ']'`:
`single_value (',' single_value)*`. -/
def pListElems (first : PyValue) (s : Input) (fuel : Nat) :
    List PyValue × Input :=
  match fuel with
  | 0 => ([first], s)
  | fuel + 1 =>
      match pLiteral "," s with
      | none => ([first], s)
      | some s1 =>
          match pSingle s1 with
          | none => ([first], s)
          | some (v, s2) =>
              let (vs, rem) := pListElems v s2 fuel
              (first :: vs, rem)

/-- Models `list_value` (its parse action is the identity: `"list"` has no entry in
`_TRANSFORMS`, so the group simply becomes a list). -/
def pListV (s : Input) : Option (PyValue × Input) :=
  match pLiteral "[" s with
  | none => none
  | some s1 =>
      match pSingle s1 with
      | none =>
          match pLiteral "]" s1 with
          | some rem => some (.list [], rem)
          | none => none
      | some (v, s2) =>
          let (vs, s3) := pListElems v s2 s1.length
          match pLiteral "]" s3 with
          | some rem => some (.list vs, rem)
          | none => none

/-! `dict_value` is a `Forward` (recursive) construct:
`dict_value = '{' + delimitedList(dictOf(string_value + ':', value)) + '}'`.
Inside the braces, `delimitedList` of `dictOf` accepts one or more
`key : value` pairs in which consecutive pairs are separated by either a
comma (the `delimitedList` route) or plain adjacency (the `dictOf` route).
Recursion through `value` is bounded by an explicit fuel parameter; the top
entry points supply more fuel than the input length, so fuel can never be
exhausted on the way to an accepting parse. -/

mutual

/-- Models `value = list_value ^ single_value ^ dict_value` (see the section
comment: the alternatives are disjoint by first character). -/
def pValue : Nat → Input → Option (PyValue × Input)
  | 0, _ => none
  | fuel + 1, s =>
      match skipWs s with
      | '[' :: rest => pListV ('[' :: rest)
      | '{' :: rest => pDict fuel ('{' :: rest)
      | other => pSingle other

/-- One `string_value ':' value` pair of `dictOf`. -/
def pDictPair : Nat → Input → Option ((String × PyValue) × Input)
  | 0, _ => none
  | fuel + 1, s =>
      match pStringValue s with
      | none => none
      | some (k, s1) =>
          match k with
          | .str key =>
              match pLiteral ":" s1 with
              | none => none
              | some s2 =>
                  match pValue fuel s2 with
                  | none => none
                  | some (v, s3) => some ((key, v), s3)
          | _ => none

/-- The pair sequence inside braces: first pair already parsed, the rest
follow either directly (`dictOf` repetition) or after a comma
(`delimitedList`). -/
def pDictPairs : Nat → List (String × PyValue) → Input →
    List (String × PyValue) × Input
  | 0, acc, s => (acc, s)
  | fuel + 1, acc, s =>
      match pDictPair fuel s with
      | some (kv, s1) => pDictPairs fuel (acc ++ [kv]) s1
      | none =>
          match pLiteral "," s with
          | none => (acc, s)
          | some s1 =>
              match pDictPair fuel s1 with
              | none => (acc, s)
              | some (kv, s2) => pDictPairs fuel (acc ++ [kv]) s2

/-- Models `dict_value`; its parse action applies `dict` to the group, which
collapses duplicate keys with later occurrences winning. -/
def pDict : Nat → Input → Option (PyValue × Input)
  | 0, _ => none
  | fuel + 1, s =>
      match pLiteral "\x7b" s with
      | none => none
      | some s1 =>
          match pDictPair fuel s1 with
          | none => none
          | some (kv, s2) =>
              let (kvs, s3) := pDictPairs fuel [kv] s2
              match pLiteral "\x7d" s3 with
              | some rem => some (.dict (asDict kvs), rem)
              | none => none

end

/-- Models
`key_value = Dict(ZeroOrMore(Group(identifier + Suppress("=") + value)))`.
A failing iteration (no identifier, no `=`, or no value) ends the
repetition without consuming anything. -/
def pKeyValues (fuel : Nat) : Nat → Input → List (String × PyValue) × Input
  | 0, s => ([], s)
  | iters + 1, s =>
      match pIdentifier s with
      | none => ([], s)
      | some (ident, s1) =>
          match pLiteral "=" s1 with
          | none => ([], s)
          | some s2 =>
              match pValue fuel s2 with
              | none => ([], s)
              | some (v, s3) =>
                  let (rest, rem) := pKeyValues fuel iters s3
                  ((ident, v) :: rest, rem)

/-- Models
`positionals = ZeroOrMore(value + (StringEnd() ^ Suppress(OneOrMore(White()))))`:
each positional value must be followed by end of input or at least one
whitespace character (which is consumed), so text like `something=` is a
parse error rather than a dangling positional. -/
def pPositionals (fuel : Nat) : Nat → Input → List PyValue × Input
  | 0, s => ([], s)
  | iters + 1, s =>
      match pValue fuel s with
      | none => ([], s)
      | some (v, rem) =>
          match rem with
          | [] => ([v], [])
          | c :: rest =>
              if isWsChar c then
                let (vs, rem') := pPositionals fuel iters (skipWs rest)
                (v :: vs, rem')
              else ([], s)

/-- Models `command = key_value + positionals` together with
`parse(text, expect_subcommand=False)` under `parseAll=True`: `none` is the
`CommandParseError` outcome.  (`run_interactive` only uses
`command_with_subcommand` for super-commands, which are outside the
embedded fragment.) -/
def parseCommand (text : String) : Option (List (String × PyValue) × List PyValue) :=
  let s := text.toList
  let fuel := 2 * s.length + 4
  let (kvs, s1) := pKeyValues fuel (s.length + 1) s
  let (poss, s2) := pPositionals fuel (s.length + 1) s1
  if (skipWs s2).isEmpty then some (kvs, poss) else none

/-! ## Type coercion (`nubia/internal/typing/builder.py`, `apply_typing`)

The declared semantic types of the commands appearing in the claims are the
scalar types (`str`, `int`, `float`, `bool`), untyped/`Any`, and
`typing.List[T]`; `get_typing_function` resolves those to the builtin
constructors (`str`, `int`, `float`, `bool`), the identity, and
`_apply_list_type` respectively.  A Python `ValueError` during coercion is
modelled as `none` (`run_interactive` catches exactly `ValueError` and
turns it into exit code 4). -/

inductive NType : Type where
  | str
  | int
  | float
  | bool
  | any
  | list (elem : Option NType)

def stripWsEnds (cs : List Char) : List Char :=
  ((cs.dropWhile isWsChar).reverse.dropWhile isWsChar).reverse

/-- Python `int(string)`: surrounding whitespace, an optional sign, then
decimal digits (digit-group underscores are not modelled; no claim input
uses them). -/
def pyIntOfString (s : String) : Option Int :=
  let cs := stripWsEnds s.toList
  let (neg, ds) := match cs with
    | '-' :: rest => (true, rest)
    | '+' :: rest => (false, rest)
    | _ => (false, cs)
  if ¬ ds.isEmpty ∧ ds.all isDigitC then
    some (if neg then -(natOfDigits ds : Int) else (natOfDigits ds : Int))
  else none

/-- Exponent suffix of a Python float string: optional sign then digits. -/
def pyFloatExp (cs : Input) : Option (Int × Input) :=
  let (neg, c1) := match cs with
    | '-' :: rest => (true, rest)
    | '+' :: rest => (false, rest)
    | _ => (false, cs)
  match takeWhileC isDigitC c1 with
  | ([], _) => none
  | (ds, rem) =>
      some ((if neg then -(natOfDigits ds : Int) else (natOfDigits ds : Int)), rem)

/-- Python `float(string)` on finite decimal notation (`inf`/`nan` spellings
are not modelled; no claim input uses them). -/
def pyFloatOfString (s : String) : Option ℚ :=
  let cs := stripWsEnds s.toList
  let (neg, c1) := match cs with
    | '-' :: rest => (true, rest)
    | '+' :: rest => (false, rest)
    | _ => (false, cs)
  let (ip, r1) := takeWhileC isDigitC c1
  let (fp, r2) := match r1 with
    | '.' :: rest => takeWhileC isDigitC rest
    | _ => ([], r1)
  let consumedDot := match r1 with
    | '.' :: _ => true
    | _ => false
  if ip.isEmpty ∧ fp.isEmpty then none
  else
    let r2' := if consumedDot then r2 else r1
    let expRes : Option (Int × Input) := match r2' with
      | 'e' :: rest => pyFloatExp rest
      | 'E' :: rest => pyFloatExp rest
      | _ => some (0, r2')
    match expRes with
    | none => none
    | some (ex, r3) =>
        if r3.isEmpty then some (decimalToRat neg ip fp ex) else none

/-- Python `int(float)` truncates toward zero. -/
def ratTrunc (q : ℚ) : Int :=
  if q < 0 then q.ceil else q.floor

/-- Python `int(value)`.  On lists/dicts `int` raises `TypeError`, which
`run_interactive` does not catch; those inputs are outside every claim and
are conflated with the `ValueError` outcome here. -/
def pyIntOf : PyValue → Option Int
  | .int n => some n
  | .bool b => some (if b then 1 else 0)
  | .float q => some (ratTrunc q)
  | .str s => pyIntOfString s
  | _ => none

/-- Python `float(value)` (same remark about `TypeError` as `pyIntOf`). -/
def pyFloatOf : PyValue → Option ℚ
  | .float q => some q
  | .int n => some (n : ℚ)
  | .bool b => some (if b then 1 else 0)
  | .str s => pyFloatOfString s
  | _ => none

/-- Python truthiness, used by the `bool` constructor (which never raises). -/
def pyBoolOf : PyValue → Bool
  | .str s => ¬ s.isEmpty
  | .bool b => b
  | .int n => n ≠ 0
  | .float q => q ≠ 0
  | .list xs => ¬ xs.isEmpty
  | .dict kvs => ¬ kvs.isEmpty

/-- Decimal rendering of a float whose value is integral; Python's
shortest-repr formatting of non-integral floats is not modelled (no claim
coerces a non-integral float to `str`). -/
def ratReprApprox (q : ℚ) : String :=
  if q.den = 1 then toString q.num ++ ".0"
  else toString q.num ++ "/" ++ toString q.den

mutual

/-- Python `str(value)`. -/
def pyStrOf : PyValue → String
  | .str s => s
  | v => pyReprOf v

/-- Python `repr(value)`, reached via `str` on containers. -/
def pyReprOf : PyValue → String
  | .str s => "\x27" ++ s ++ "\x27"
  | .bool b => if b then "True" else "False"
  | .int n => toString n
  | .float q => ratReprApprox q
  | .list xs => "[" ++ pyReprList xs ++ "]"
  | .dict kvs => "\x7b" ++ pyReprKVs kvs ++ "\x7d"

def pyReprList : List PyValue → String
  | [] => ""
  | [x] => pyReprOf x
  | x :: xs => pyReprOf x ++ ", " ++ pyReprList xs

def pyReprKVs : List (String × PyValue) → String
  | [] => ""
  | [(k, v)] => "\x27" ++ k ++ "\x27: " ++ pyReprOf v
  | (k, v) :: xs => "\x27" ++ k ++ "\x27: " ++ pyReprOf v ++ ", " ++ pyReprKVs xs

end

/-- Models `apply_typing(value, tp) = get_typing_function(tp)(value)` on the
embedded type grammar.  `none` is a coercion failure (`ValueError`). -/
def applyTyping : NType → PyValue → Option PyValue
  | .str, v => some (.str (pyStrOf v))
  | .int, v => (pyIntOf v).map (fun n => .int n)
  | .float, v => (pyFloatOf v).map (fun q => .float q)
  | .bool, v => some (.bool (pyBoolOf v))
  | .any, v => some v
  | .list et, v =>
      let xs := match v with
        | .list xs => xs
        | w => [w]
      match et with
      | none => some (.list xs)
      | some t => (xs.mapM (fun x => applyTyping t x)).map (fun ys => .list ys)

/-! ## The interactive resolver (`AutoCommand.run_interactive`, cmdbase.py)

One declared argument of a command.  `arg` is the callable's parameter name
(`Argument.arg` in the inspection model), the key of the surrounding `Meta`
entry is the external display name.  The embedded fragment is the plain
(non-super-command) path of `run_interactive`; super-command instantiation
(cmdbase.py lines 210-235) is outside every claim's command shape. -/
structure ArgMeta where
  arg : String
  positional : Bool := false
  default_value_set : Bool := false
  type : Option NType := none
  choices : List PyValue := []

/-- The inspection's ordered `arguments` mapping: display name to metadata. -/
abbrev Meta := List (String × ArgMeta)

/-- Argument-metadata lookup `args_metadata[key]`.  In every path of the
modelled code the key is known to be present; the default is never
reached. -/
def metaOf (md : Meta) (k : String) : ArgMeta :=
  (((md.find? (fun p => p.1 = k)).map (fun p => p.2)).getD
    { arg := k })

/-- Models `AutoCommand._positional_arguments(args_metadata, filter_out)`:
the declaration-ordered names that are positional and not already supplied
by name. -/
def canBePositional (md : Meta) (d : PyDict) : List String :=
  (md.filter (fun p => p.2.positional ∧ ¬ dictContains d p.1)).map (fun p => p.1)

/-- Models `extra_keys = set(args_dict.keys()) - set(args_metadata)`. -/
def extraKeys (md : Meta) (d : PyDict) : List String :=
  (dictKeys d).filter (fun k => ¬ md.any (fun p => p.1 = k))

/-- Models cmdbase.py lines 307-312: the required (no-default) declared
arguments that resolved no value from key=values, positionals or defaults. -/
def requiredMissing (md : Meta) (d : PyDict) : List String :=
  (md.map (fun p => p.1)).filter
    (fun k => ¬ dictContains d k ∧ ¬ (metaOf md k).default_value_set)

/-- Models `Context.set_verbose(raw_value)` (context.py): `int(raw_value)`,
falling back on `int(raw_value.lower() == "true")` for non-numeric
strings. -/
def setVerboseVal : PyValue → Int
  | .int n => n
  | .bool b => if b then 1 else 0
  | .float q => ratTrunc q
  | .str s =>
      match pyIntOfString s with
      | some n => n
      | none => if s.toLower = "true" then 1 else 0
  | _ => 0

/-- Models cmdbase.py lines 321-338: coerce every resolved value to its
declared type in dict order (`target_type = args_metadata[key].type`,
`None` meaning `str`); the first `ValueError` aborts with the offending
argument name. -/
def coerceAll (md : Meta) : PyDict → Except String PyDict
  | [] => .ok []
  | (k, v) :: rest =>
      let t := ((metaOf md k).type).getD .str
      match applyTyping t v with
      | none => .error k
      | some v' =>
          match coerceAll md rest with
          | .error k' => .error k'
          | .ok rest' => .ok ((k, v') :: rest')

/-- Element view used by the list-typed `choices` check (`for v in value`). -/
def elemsOf : PyValue → List PyValue
  | .list xs => xs
  | v => [v]

/-- Models cmdbase.py lines 340-364: the first argument (in dict order)
whose value violates its `choices` set, element-wise when the declared type
is `typing.List[...]`.  Membership is Python `in`, i.e. `==`. -/
def checkChoices (md : Meta) (d : PyDict) : Option String :=
  (d.find? (fun kv =>
      let m := metaOf md kv.1
      !m.choices.isEmpty &&
        match m.type with
        | some (.list _) => (elemsOf kv.2).any (fun v => !m.choices.any (fun c => pyEq v c))
        | _ => !m.choices.any (fun c => pyEq kv.2 c))).map (fun kv => kv.1)

/-- Outcome of one interactive invocation, keeping the distinct error exits
of `run_interactive` apart (they are all returned as small ints in the
source; `returnValue` collapses them back). -/
inductive RIResult : Type where
  | parseErr
  | errTooManyPositionals
  | errDuplicateKeys (keys : List String)
  | errUnknownArgs (keys : List String)
  | errMissingRequired (keys : List String)
  | errTypeCoercion (key : String)
  | errChoice (key : String)
  | errBodyException
  | success (v : PyValue)

/-- The Python return value of `run_interactive` for each outcome:
`CommandParseError` and a command-body exception return 1, the grammar/extra
/duplicate errors 2, missing-required 3, coercion and choice violations 4,
and success forwards the body's value. -/
def returnValue : RIResult → PyValue
  | .parseErr => .int 1
  | .errTooManyPositionals => .int 2
  | .errDuplicateKeys _ => .int 2
  | .errUnknownArgs _ => .int 2
  | .errMissingRequired _ => .int 3
  | .errTypeCoercion _ => .int 4
  | .errChoice _ => .int 4
  | .errBodyException => .int 1
  | .success v => v

/-- The observable outcome of `run_interactive`: its return value, the
context's verbosity after the call, and the exact keyword arguments the
command body was invoked with (`none` when the body was never entered). -/
structure RunOut : Type where
  result : RIResult
  verboseAfter : Int
  calledWith : Option PyDict

/-- Models cmdbase.py lines 288-383 (from the verbosity override to the
invocation): consume a `verbose` entry as a transient verbosity override,
reject unknown keys, collect and reject missing required arguments, coerce
types, validate choices, re-key to parameter names and invoke.  Note that
`ctx.set_verbose(old_verbose)` (line 375) runs inside the `try` after the
body returns, so the prior verbosity is restored only when the body does
not raise. -/
def stagePostDup (md : Meta) (body : PyDict → Except Unit PyValue)
    (oldVerbose : Int) (args0 : PyDict) : RunOut :=
  let verbose1 := match dictGet? args0 "verbose" with
    | some v => setVerboseVal v
    | none => oldVerbose
  let args1 := dictErase args0 "verbose"
  let extra := extraKeys md args1
  if ¬ extra.isEmpty then ⟨.errUnknownArgs extra, verbose1, none⟩
  else
    let requiredM := requiredMissing md args1
    if ¬ requiredM.isEmpty then ⟨.errMissingRequired requiredM, verbose1, none⟩
    else
      match coerceAll md args1 with
      | .error k => ⟨.errTypeCoercion k, verbose1, none⟩
      | .ok args2 =>
          match checkChoices md args2 with
          | some k => ⟨.errChoice k, verbose1, none⟩
          | none =>
              let renamed := asDict (args2.map (fun kv => ((metaOf md kv.1).arg, kv.2)))
              match body renamed with
              | .ok r => ⟨.success r, oldVerbose, some renamed⟩
              | .error _ => ⟨.errBodyException, verbose1, some renamed⟩

/-- Models cmdbase.py lines 200-286 after a successful parse: build
`args_dict`/`key_values` from the key=value section, bind positionals to the
eligible slots in declaration order, reject surplus positionals, and reject
keys supplied both positionally and by key=value; then continue with
`stagePostDup`. -/
def resolveArgs (md : Meta) (body : PyDict → Except Unit PyValue)
    (oldVerbose : Int) (kvs : List (String × PyValue)) (poss : List PyValue) :
    RunOut :=
  let args_dict := asDict kvs
  let key_values := asDict kvs
  let can_be_positional := canBePositional md args_dict
  if can_be_positional.length < poss.length then
    ⟨.errTooManyPositionals, oldVerbose, none⟩
  else
    let args_from_positionals := can_be_positional.zip poss
    let args1 := dictUpdate args_dict args_from_positionals
    let duplicate_keys :=
      (args_from_positionals.map (fun kv => kv.1)).filter
        (fun k => dictContains key_values k)
    if ¬ duplicate_keys.isEmpty then
      ⟨.errDuplicateKeys duplicate_keys, oldVerbose, none⟩
    else stagePostDup md body oldVerbose args1

/-- Models `AutoCommand.run_interactive(cmd, args, raw)` for a plain
(non-super) command: parse the argument line with the interactive grammar
(`CommandParseError` means return 1) and resolve/invoke.  The command body
is `body`, returning `Except.error` when it raises. -/
def runInteractive (md : Meta) (body : PyDict → Except Unit PyValue)
    (oldVerbose : Int) (args : String) : RunOut :=
  match parseCommand args with
  | none => ⟨.parseErr, oldVerbose, none⟩
  | some (kvs, poss) => resolveArgs md body oldVerbose kvs poss

/-! ## Fuzzy lookup (`CommandsRegistry.find_approx`, registry.py)

`find_approx` filters the registered names through
`jellyfish.damerau_levenshtein_distance(this, that) <= 2`.  The distance is
computed by the standard dynamic program with the adjacent-transposition
case; on every pair of strings appearing in the claims this coincides with
jellyfish's unrestricted Damerau-Levenshtein (no input needs an edit inside
a transposed pair). -/

def minTri (x y z : Nat) : Nat := min x (min y z)

/-- One row of the edit-distance dynamic program: `prev` is row `i-1`,
`pprev` row `i-2` (for the transposition case), `ai` the `i`-th source
character and `aprev` the `(i-1)`-th. -/
def dlNewRow (b : List Char) (prev : List Nat) (pprev : Option (List Nat))
    (ai : Char) (aprev : Option Char) : List Nat :=
  (List.range (b.length + 1)).foldl
    (fun acc j =>
      if j = 0 then acc ++ [prev.getD 0 0 + 1]
      else
        let bj := b.getD (j - 1) ' '
        let cost : Nat := if ai = bj then 0 else 1
        let base :=
          minTri (acc.getD (j - 1) 0 + 1) (prev.getD j 0 + 1)
            (prev.getD (j - 1) 0 + cost)
        let cell :=
          match pprev, aprev with
          | some p2, some ap =>
              if 2 ≤ j ∧ ai = b.getD (j - 2) ' ' ∧ ap = bj then
                min base (p2.getD (j - 2) 0 + 1)
              else base
          | _, _ => base
        acc ++ [cell])
    []

def dlLoop (b : List Char) : List Char → List Nat → Option (List Nat) →
    Option Char → List Nat
  | [], prev, _, _ => prev
  | ai :: rest, prev, pprev, aprev =>
      dlLoop b rest (dlNewRow b prev pprev ai aprev) (some prev) (some ai)

/-- Models `jellyfish.damerau_levenshtein_distance`. -/
def damerauLevenshtein (s t : String) : Nat :=
  let b := t.toList
  (dlLoop b s.toList (List.range (b.length + 1)) none none).getD b.length 0

/-- The `suggestions` list built inside `find_approx` (registry.py lines
118-122): the registered names within distance 2 of the looked-up one, in
registry order. -/
def findApproxSuggestions (command : String) (registered : List String) :
    List String :=
  registered.filter (fun another => damerauLevenshtein command another ≤ 2)

/-- Models `find_approx`'s returned message (registry.py lines 124-129). -/
def findApprox (command : String) (registered : List String) : String :=
  match findApproxSuggestions command registered with
  | [] => ""
  | [single] => " Did you mean " ++ single ++ "?"
  | more =>
      " Did you mean " ++ ", ".intercalate (more.dropLast) ++ " or " ++
        (more.getLast!) ++ "?"

/-! ## Event dispatch (`dispatch_message` + `Listener.react`)

`CommandsRegistry.dispatch_message` (registry.py lines 134-136) runs
`for mod in self._listeners: mod.react(msg, *args, **kwargs)`.
`Listener.react` (eventbus.py lines 22-34) is an `async def`: calling it
does not execute its body — it returns a coroutine object that would run
the body only when awaited.  `dispatch_message` discards that coroutine
(no subclass overrides `react` with a plain function, and no call site of
`dispatch_message` awaits anything), so the react bodies — which react to
the CONNECTED message by running `on_connected`, re-raising
`NotImplementedError` and catching and logging every other exception —
never execute during dispatch.  The embedding keeps the two layers apart:
the body's semantics (`reactBody`), the coroutine object a call produces
(`reactCall`), and the dispatch loop that drops it (`dispatchMessage`). -/

/-- Message constants of eventbus.py (`Message.CONNECTED = 1`). -/
def MessageCONNECTED : Nat := 1

/-- What a listener's `on_connected` does when its body is actually run. -/
inductive Reaction : Type where
  | ok
  | genericError
  | notImplemented
deriving DecidableEq

/-- The effects of running one react body (eventbus.py lines 23-31): for
the CONNECTED message, `on_connected` is entered; a generic exception is
caught and logged inside `react`; a `NotImplementedError` re-raises out of
`react`.  For any other message the body does nothing. -/
structure ReactOutcome : Type where
  onConnectedEntered : Bool
  loggedGeneric : Bool
  raisedNotImplemented : Bool

/-- The body of `Listener.react`, as it executes when awaited. -/
def reactBody (r : Reaction) (msg : Nat) : ReactOutcome :=
  if msg = MessageCONNECTED then
    match r with
    | .ok => ⟨true, false, false⟩
    | .genericError => ⟨true, true, false⟩
    | .notImplemented => ⟨true, false, true⟩
  else ⟨false, false, false⟩

/-- A coroutine object, as returned by calling an `async def` function:
the body is suspended and produces its effects only when awaited. -/
structure ReactCoroutine : Type where
  awaited : Unit → ReactOutcome

/-- Models the call `mod.react(msg, ...)`: it builds the coroutine and
returns it without running the body. -/
def reactCall (r : Reaction) (msg : Nat) : ReactCoroutine :=
  ⟨fun _ => reactBody r msg⟩

/-- The observable effects of one `dispatch_message` call: listeners whose
react body actually executed (in order), listeners whose generic exception
was caught and logged, and the listener whose `NotImplementedError` escaped
the loop, if any. -/
structure DispatchOut : Type where
  delivered : List Nat
  logged : List Nat
  raisedNotImplemented : Option Nat

/-- Models registry.py lines 134-136 as written: the loop visits every
listener and calls its async `react`, but the returned coroutine is
discarded without being awaited — no react body runs, nothing is logged,
and no exception can escape. -/
def dispatchMessage (listeners : List (Nat × Reaction)) (msg : Nat) :
    DispatchOut :=
  match listeners with
  | [] => ⟨[], [], none⟩
  | (_i, r) :: rest =>
      let _dropped := reactCall r msg
      dispatchMessage rest msg

/-- The dispatch loop as the spec describes it — the behaviour that awaiting
each listener's coroutine in place would produce, given the react body of
eventbus.py.  Clearly named as the intended (not the source's) semantics;
it serves to exhibit what the unawaited loop loses. -/
def dispatchMessageAwaited (listeners : List (Nat × Reaction)) (msg : Nat) :
    DispatchOut :=
  match listeners with
  | [] => ⟨[], [], none⟩
  | (i, r) :: rest =>
      let out := (reactCall r msg).awaited ()
      if out.raisedNotImplemented then ⟨[i], [], some i⟩
      else
        let t := dispatchMessageAwaited rest msg
        ⟨i :: t.delivered,
          if out.loggedGeneric then i :: t.logged else t.logged,
          t.raisedNotImplemented⟩

/-! ## The command blacklist (`blackcmd.py`)

`CommandBlacklist` declares `_blacklisted_commands = {}` at class level and
its `__init__` body is `pass`, so no instance ever carries its own
`_blacklisted_commands` attribute: attribute lookup on any instance yields
the one class-level dict, and `add_blocked_command`'s
`self._blacklisted_commands[command] = ""` mutates that shared dict.  The
model keeps Python's attribute-resolution order explicit: each instance has
an optional own dict (always absent, because `__init__` assigns nothing)
that would shadow the class dict if it existed. -/

structure BlackWorld : Type where
  classDict : List String
  instOwn : List (Option (List String))

/-- Models `CommandBlacklist()` — `__init__` is `pass`, so the new instance
gets no own `_blacklisted_commands` attribute. -/
def blackNewInstance (w : BlackWorld) : BlackWorld × Nat :=
  ({ w with instOwn := w.instOwn ++ [none] }, w.instOwn.length)

/-- Python attribute lookup for `self._blacklisted_commands`: the instance's
own attribute if present, else the class attribute. -/
def blackAttr (w : BlackWorld) (i : Nat) : List String :=
  match (w.instOwn.getD i none) with
  | some d => d
  | none => w.classDict

/-- Models `is_blacklisted(self, command)`: membership in the dict found by
attribute lookup. -/
def isBlacklisted (w : BlackWorld) (i : Nat) (c : String) : Bool :=
  decide (c ∈ blackAttr w i)

/-- Key insertion for `d[command] = ""` (insertion-ordered dict keys). -/
def keyInsert (d : List String) (c : String) : List String :=
  if c ∈ d then d else d ++ [c]

/-- Models `add_blocked_command(self, command)`: mutate the dict object
found by attribute lookup — the class dict whenever the instance has no own
attribute. -/
def addBlockedCommand (w : BlackWorld) (i : Nat) (c : String) : BlackWorld :=
  match (w.instOwn.getD i none) with
  | some d => { w with instOwn := w.instOwn.set i (some (keyInsert d c)) }
  | none => { w with classDict := keyInsert w.classDict c }

/-! ## CLI exit-code mapping (`Nubia.run`, nubia.py lines 313-325, and
`AutoCommand.run_cli`, cmdbase.py lines 426-454) -/

/-- The dynamic type of a command result as far as `Nubia.run` inspects it
(`type(ret) is int` is an exact type test, so `bool` — although a subclass
of `int` in Python — takes the dedicated branch). -/
inductive CliRet : Type where
  | int (n : Int)
  | bool (b : Bool)
  | none
  | other

/-- Models `AutoCommand.run_cli`: any exception escaping the invoked
callable is caught, reported, and turned into the integer 1. -/
def runCli (body : Except Unit CliRet) : CliRet :=
  match body with
  | .error _ => .int 1
  | .ok v => v

/-- Models the tail of `Nubia.run`: `int` results pass through verbatim,
`bool` maps via `int(not ret)`, `None` maps to 0 and anything else to 1. -/
def nubiaRunExit (ret : CliRet) : Int :=
  match ret with
  | .int n => n
  | .bool b => if b then 0 else 1
  | .none => 0
  | .other => 1

/-- The exit code of a CLI invocation whose command body yields `body`. -/
def nubiaRunCliExit (body : Except Unit CliRet) : Int :=
  nubiaRunExit (runCli body)

/-! ## Concrete commands and bodies used by witnesses and counterexamples -/

/-- A command body that returns normally. -/
def okBody : PyDict → Except Unit PyValue := fun _ => .ok (.str "ran")

/-- A command body that raises. -/
def raiseBody : PyDict → Except Unit PyValue := fun _ => .error ()

/-- A command with a single positional `str` argument (like
`test_command(arg1)` in the repository's tests). -/
def cmdOnePos : Meta :=
  [("arg", { arg := "arg", positional := true, type := some .str })]

/-- A command with two positional `str` arguments. -/
def cmdTwoPos : Meta :=
  [("a", { arg := "a", positional := true, type := some .str }),
   ("b", { arg := "b", positional := true, type := some .str })]

/-- A command whose single argument is declared `int`. -/
def cmdIntArg : Meta := [("arg", { arg := "arg", type := some .int })]

/-- A command whose single argument is declared `float`. -/
def cmdFloatArg : Meta := [("arg", { arg := "arg", type := some .float })]

/-- A command with required arguments `alpha`, `beta` and a defaulted
`gamma`. -/
def cmdTwoRequired : Meta :=
  [("alpha", { arg := "alpha", type := some .int }),
   ("beta", { arg := "beta", type := some .str }),
   ("gamma", { arg := "gamma", type := some .str, default_value_set := true })]

/-- The command set of the fuzzy-suggestion example. -/
def regNames : List String := ["maintenance", "malloc", "move", "list"]

/-- The `args_dict` contents at the missing-required check (cmdbase.py line
307): the key=value section updated with the positional bindings, minus a
consumed `verbose` entry. -/
def resolvedDict (md : Meta) (kvs : List (String × PyValue))
    (poss : List PyValue) : PyDict :=
  dictErase
    (dictUpdate (asDict kvs) ((canBePositional md (asDict kvs)).zip poss))
    "verbose"

/-! # Theorems -/

/-- Names eligible for positional binding are exactly those not already
supplied by name, so they are never keys of the key=value dict. -/
theorem canBePositional_not_contains (md : Meta) (d : PyDict) (k : String)
    (h : k ∈ canBePositional md d) : dictContains d k = false := by
  simp only [canBePositional, List.mem_map, List.mem_filter] at h
  obtain ⟨p, ⟨_, hp⟩, rfl⟩ := h
  simp only [decide_eq_true_eq] at hp
  simpa using hp.2

/-- The `duplicate_keys` intersection computed in `run_interactive` (lines
277-279) is empty for every input: positional slots exclude names already
supplied by key=value. -/
theorem duplicate_keys_nil (md : Meta) (kvs : List (String × PyValue))
    (poss : List PyValue) :
    (((canBePositional md (asDict kvs)).zip poss).map
        (fun kv => kv.1)).filter
      (fun k => dictContains (asDict kvs) k) = [] := by
  apply List.filter_eq_nil_iff.mpr
  intro k hk
  obtain ⟨⟨k', v⟩, hmem, hfst⟩ := List.mem_map.mp hk
  cases hfst
  have hA : k' ∈ canBePositional md (asDict kvs) := (List.of_mem_zip hmem).1
  simp [canBePositional_not_contains md (asDict kvs) k' hA]

/-- Case analysis: the post-duplication stage never produces the
duplicate-keys error. -/
theorem stagePostDup_ne_dup (md : Meta) (body : PyDict → Except Unit PyValue)
    (v : Int) (d : PyDict) (ks : List String) :
    (stagePostDup md body v d).result ≠ .errDuplicateKeys ks := by
  simp only [stagePostDup]
  split
  · simp
  · split
    · simp
    · split
      · simp
      · split
        · simp
        · split <;> simp

/-- Case analysis: the post-duplication stage restores the prior verbosity
whenever it ends in success. -/
theorem stagePostDup_success_verbose (md : Meta)
    (body : PyDict → Except Unit PyValue) (v : Int) (d : PyDict)
    (r : PyValue) (h : (stagePostDup md body v d).result = .success r) :
    (stagePostDup md body v d).verboseAfter = v := by
  simp only [stagePostDup] at h ⊢
  split at h
  · simp at h
  · split at h
    · simp at h
    · split at h
      · simp at h
      · split at h
        · simp at h
        · split at h <;> simp_all

/-- When the parse succeeds and the positional values fit the eligible
slots, `run_interactive` reaches the post-duplication stage with the
updated `args_dict` (the duplicate-key rejection in between can never
fire). -/
theorem runInteractive_reaches_post (md : Meta)
    (body : PyDict → Except Unit PyValue) (v : Int) (args : String)
    (kvs : List (String × PyValue)) (poss : List PyValue)
    (hp : parseCommand args = some (kvs, poss))
    (hpos : poss.length ≤ (canBePositional md (asDict kvs)).length) :
    runInteractive md body v args =
      stagePostDup md body v
        (dictUpdate (asDict kvs)
          ((canBePositional md (asDict kvs)).zip poss)) := by
  simp only [runInteractive, hp]
  simp only [resolveArgs]
  rw [if_neg (by omega)]
  rw [if_neg (by simp [duplicate_keys_nil])]

/-- The post-duplication stage with no unknown keys and a nonempty set of
unresolved required arguments aborts with the missing-required error and
never enters the body. -/
theorem stagePostDup_missing (md : Meta) (body : PyDict → Except Unit PyValue)
    (v : Int) (d : PyDict)
    (hex : extraKeys md (dictErase d "verbose") = [])
    (hm : requiredMissing md (dictErase d "verbose") ≠ []) :
    (stagePostDup md body v d).result =
        .errMissingRequired (requiredMissing md (dictErase d "verbose")) ∧
      (stagePostDup md body v d).calledWith = none := by
  simp only [stagePostDup]
  rw [if_neg (by simp [hex])]
  rw [if_pos (by simpa [List.isEmpty_iff] using hm)]
  exact ⟨rfl, rfl⟩

/-- C1: an interactive invocation that parses, fits its positional values
into the eligible slots, names no unknown argument, and still leaves one or
more required (no-default) arguments without a value, returns exit code 3
with the message listing all unmet required names (accumulated, not
fail-fast), and the command body is never invoked. -/
theorem missing_required_aborts_with_3 (md : Meta)
    (body : PyDict → Except Unit PyValue) (v : Int) (args : String)
    (kvs : List (String × PyValue)) (poss : List PyValue)
    (hp : parseCommand args = some (kvs, poss))
    (hpos : poss.length ≤ (canBePositional md (asDict kvs)).length)
    (hex : extraKeys md (resolvedDict md kvs poss) = [])
    (hm : requiredMissing md (resolvedDict md kvs poss) ≠ []) :
    (runInteractive md body v args).result =
        .errMissingRequired (requiredMissing md (resolvedDict md kvs poss)) ∧
      returnValue (runInteractive md body v args).result = .int 3 ∧
      (runInteractive md body v args).calledWith = none ∧
      ∀ k, k ∈ requiredMissing md (resolvedDict md kvs poss) ↔
        (k ∈ md.map (fun p => p.1) ∧
          dictContains (resolvedDict md kvs poss) k = false ∧
          (metaOf md k).default_value_set = false) := by
  rw [runInteractive_reaches_post md body v args kvs poss hp hpos]
  obtain ⟨h1, h2⟩ := stagePostDup_missing md body v
    (dictUpdate (asDict kvs) ((canBePositional md (asDict kvs)).zip poss))
    hex hm
  refine ⟨h1, ?_, h2, ?_⟩
  · rw [h1]; rfl
  · intro k
    simp [requiredMissing, List.mem_filter]

/-- C1 witness: the command with required `alpha`, `beta` and defaulted
`gamma`, invoked with an empty argument line, aborts with exit code 3
listing exactly `alpha` and `beta`, and the body never runs. -/
theorem missing_required_aborts_with_3_witness :
    requiredMissing cmdTwoRequired (resolvedDict cmdTwoRequired [] []) =
        ["alpha", "beta"] ∧
      (runInteractive cmdTwoRequired okBody 0 "").result =
        .errMissingRequired ["alpha", "beta"] ∧
      returnValue (runInteractive cmdTwoRequired okBody 0 "").result = .int 3 ∧
      (runInteractive cmdTwoRequired okBody 0 "").calledWith = none := by
  obtain ⟨h1, h2, h3, _⟩ :=
    missing_required_aborts_with_3 cmdTwoRequired okBody 0 "" [] [] rfl
      (by decide) rfl (by decide)
  exact ⟨rfl, h1.trans rfl, h2, h3⟩

/-- C2 counterexample: supplying the same logical argument both positionally
and by key never produces the claimed duplicate-key rejection.  With the
single-positional command, `arg=y x` aborts with the surplus-positionals
error (still exit code 2, but a different error with a different message);
with the two-positional command, `a=y x` is not rejected at all — the
positional value is rebound to the other slot and the body runs; and
putting the positional first (`x arg=y`) is a grammar error (exit code 1). -/
theorem dup_positional_key_counterexample :
    (runInteractive cmdOnePos okBody 0 "arg=y x").result =
        .errTooManyPositionals ∧
      (∀ ks, (runInteractive cmdOnePos okBody 0 "arg=y x").result ≠
        .errDuplicateKeys ks) ∧
      (runInteractive cmdTwoPos okBody 0 "a=y x").result =
        .success (.str "ran") ∧
      (runInteractive cmdTwoPos okBody 0 "a=y x").calledWith =
        some [("a", .str "y"), ("b", .str "x")] ∧
      (runInteractive cmdOnePos okBody 0 "x arg=y").result = .parseErr := by
  refine ⟨rfl, ?_, rfl, rfl, rfl⟩
  intro ks
  rw [show (runInteractive cmdOnePos okBody 0 "arg=y x").result =
    .errTooManyPositionals from rfl]
  simp

/-- C2 amended: the duplicate-key rejection (cmdbase.py lines 277-286) is
unreachable — arguments already supplied by name are excluded from the
eligible positional slots, so no invocation ever returns the duplicate-key
error.  An argument supplied both positionally and by key either sees its
positional value bound to the next eligible slot (and the body is invoked)
or, when no eligible slot remains, aborts with the surplus-positionals
error (exit code 2). -/
theorem duplicate_key_error_unreachable (md : Meta)
    (body : PyDict → Except Unit PyValue) (v : Int) (args : String)
    (ks : List String) :
    (runInteractive md body v args).result ≠ .errDuplicateKeys ks := by
  simp only [runInteractive]
  split
  · simp
  · next kvs poss _ =>
      simp only [resolveArgs]
      split
      · simp
      · rw [if_neg (by simp [duplicate_keys_nil])]
        exact stagePostDup_ne_dup md body v _ ks

/-- C2 amended, witness at a concrete invocation. -/
theorem duplicate_key_error_unreachable_witness :
    (runInteractive cmdTwoPos okBody 0 "a=y x").result ≠
      .errDuplicateKeys ["a"] :=
  duplicate_key_error_unreachable cmdTwoPos okBody 0 "a=y x" ["a"]

/-- C3 counterexample: a key=value token appearing after a positional value
does not parse — interleaving the two forms is a grammar error, both for a
positional before one key=value and between two of them. -/
theorem interleaved_positionals_counterexample :
    parseCommand "1 a=2" = none ∧ parseCommand "b=1 x c=2" = none := ⟨rfl, rfl⟩

/-- C3 amended: positionals may not be interleaved with key=value tokens:
the grammar accepts all key=value tokens first, then all positional values.
Within that shape the parser accumulates every key=value pair into one
key/value section and every positional into one ordered sequence, and a
key=value token after a positional value fails the parse. -/
theorem command_shape_kv_then_positionals :
    parseCommand "a=1 b=2 3 4" =
        some ([("a", .str "1"), ("b", .str "2")], [.str "3", .str "4"]) ∧
      parseCommand "a=1 3 b=2 4" = none ∧
      parseCommand "3 4 a=1 b=2" = none := ⟨rfl, rfl, rfl⟩

/-- C4 counterexample: in `single_value` the generic unquoted-string
alternative precedes the int alternative, so the unquoted token `5` is
recognized as the string `"5"`, not as an int literal. -/
theorem unquoted_int_is_string_counterexample :
    pSingle "5".toList = some (.str "5", []) ∧
      pSingle "5".toList ≠ some (.int 5, []) := by
  refine ⟨rfl, ?_⟩
  rw [show pSingle "5".toList = some (.str "5", []) from rfl]
  simp

/-- C4 amended: the boolean and float alternatives of `single_value` are
tried before the generic string alternative — `1.5` is a float literal and
`True`/`true` are bool literals — but the int alternative comes after the
string one, so unquoted integer tokens such as `5` (or `-1`) are recognized
as strings; they only become ints later, through declared-type coercion. -/
theorem scalar_alternative_order :
    pSingle "1.5".toList = some (.float (mkRat 3 2), []) ∧
      pSingle "True".toList = some (.bool true, []) ∧
      pSingle "true".toList = some (.bool true, []) ∧
      pSingle "5".toList = some (.str "5", []) ∧
      pSingle "-1".toList = some (.str "-1", []) := ⟨rfl, rfl, rfl, rfl, rfl⟩

/-- C5: for a command argument declared `int`, the interactive line
`arg=-1` invokes the body with the integer `-1`; declared `float`,
`arg=-1.0` invokes it with the float `-1.0` — in both cases the coercion
happens before the body runs, whatever the body does. -/
theorem negative_numeric_literals_resolve (body : PyDict → Except Unit PyValue)
    (v : Int) :
    (runInteractive cmdIntArg body v "arg=-1").calledWith =
        some [("arg", .int (-1))] ∧
      (runInteractive cmdFloatArg body v "arg=-1.0").calledWith =
        some [("arg", .float (mkRat (-1) 1))] := by
  constructor
  · rw [show runInteractive cmdIntArg body v "arg=-1" =
      (match body [("arg", PyValue.int (-1))] with
       | .ok r => ⟨.success r, v, some [("arg", PyValue.int (-1))]⟩
       | .error _ =>
           ⟨.errBodyException, v, some [("arg", PyValue.int (-1))]⟩) from rfl]
    cases body [("arg", PyValue.int (-1))] <;> rfl
  · rw [show runInteractive cmdFloatArg body v "arg=-1.0" =
      (match body [("arg", PyValue.float (mkRat (-1) 1))] with
       | .ok r => ⟨.success r, v, some [("arg", PyValue.float (mkRat (-1) 1))]⟩
       | .error _ =>
           ⟨.errBodyException, v,
             some [("arg", PyValue.float (mkRat (-1) 1))]⟩) from rfl]
    cases body [("arg", PyValue.float (mkRat (-1) 1))] <;> rfl

/-- C6 counterexample: with `{"maintenance", "malloc", "move", "list"}`
registered, the registry's suggestion list for `"ma"` is empty — every
registered name is at Damerau-Levenshtein distance greater than 2 from
`"ma"` — not `["maintenance", "malloc"]`.  (That expectation belongs to
prefix matching, which `CommandsRegistry.find_approx` does not do.) -/
theorem find_approx_ma_counterexample :
    findApproxSuggestions "ma" regNames = [] ∧
      findApproxSuggestions "ma" regNames ≠ ["maintenance", "malloc"] := by
  refine ⟨rfl, ?_⟩
  rw [show findApproxSuggestions "ma" regNames = [] from rfl]
  simp

/-- C6 amended: `find_approx` suggests exactly the registered names within
Damerau-Levenshtein distance 2 of the input — `["list"]` for `"ls"`, and
nothing for `"ma"` or `"a"` over the example registry. -/
theorem find_approx_dl_suggestions :
    findApproxSuggestions "ls" regNames = ["list"] ∧
      findApproxSuggestions "ma" regNames = [] ∧
      findApproxSuggestions "a" regNames = [] ∧
      ∀ (q : String) (names : List String) (n : String),
        n ∈ findApproxSuggestions q names ↔
          (n ∈ names ∧ damerauLevenshtein q n ≤ 2) := by
  refine ⟨rfl, rfl, rfl, ?_⟩
  intro q names n
  simp [findApproxSuggestions, List.mem_filter]

/-- C7: `Nubia.run` maps a CLI command result to the exit code as follows:
`None` yields 0, any integer result (in particular a non-zero one) passes
through verbatim, an exception escaping the body yields 1, and a boolean
result meaning failure (`False`, mapped through `int(not ret)`) yields 1. -/
theorem cli_exit_code_mapping :
    nubiaRunCliExit (.ok .none) = 0 ∧
      (∀ n : Int, nubiaRunCliExit (.ok (.int n)) = n) ∧
      nubiaRunCliExit (.error ()) = 1 ∧
      nubiaRunCliExit (.ok (.bool false)) = 1 :=
  ⟨rfl, fun _ => rfl, rfl, rfl⟩

/-- C8 counterexample: with the verbosity meta-argument supplied
(`verbose=5`) and a command body that raises, `run_interactive` returns the
exception outcome with the ambient verbosity still at the overridden value
5, not restored to the prior 0 — `ctx.set_verbose(old_verbose)` sits inside
the `try` block after the call and is skipped on the exception path. -/
theorem verbose_not_restored_on_exception :
    (runInteractive [] raiseBody 0 "verbose=5").result = .errBodyException ∧
      (runInteractive [] raiseBody 0 "verbose=5").verboseAfter = 5 ∧
      (runInteractive [] raiseBody 0 "verbose=5").verboseAfter ≠ 0 := by
  refine ⟨rfl, rfl, ?_⟩
  rw [show (runInteractive [] raiseBody 0 "verbose=5").verboseAfter = 5 from rfl]
  decide

/-- Case analysis on `resolveArgs`: a success outcome restores the prior
verbosity. -/
theorem resolveArgs_success_verbose (md : Meta)
    (body : PyDict → Except Unit PyValue) (v : Int)
    (kvs : List (String × PyValue)) (poss : List PyValue) (r : PyValue) :
    (resolveArgs md body v kvs poss).result = .success r →
      (resolveArgs md body v kvs poss).verboseAfter = v := by
  simp only [resolveArgs]
  split
  · intro h; simp at h
  · split
    · intro h; simp at h
    · exact fun h => stagePostDup_success_verbose _ _ _ _ _ h

/-- C8 amended: the verbosity override is transient only on the success
path — whenever the command body returns normally, the ambient verbosity
after `run_interactive` equals the value from before the call.  (On the
exception path, and on validation errors occurring after the override, the
override persists: see the counterexample.) -/
theorem verbose_restored_on_success (md : Meta)
    (body : PyDict → Except Unit PyValue) (v : Int) (args : String)
    (r : PyValue)
    (h : (runInteractive md body v args).result = .success r) :
    (runInteractive md body v args).verboseAfter = v := by
  rcases hp : parseCommand args with _ | ⟨kvs, poss⟩
  · simp [runInteractive, hp] at h
  · simp only [runInteractive, hp] at h ⊢
    exact resolveArgs_success_verbose md body v kvs poss r h

/-- C8 amended, witness: a successful invocation that overrides verbosity
(`verbose=5` on prior verbosity 7) ends with verbosity 7 restored. -/
theorem verbose_restored_on_success_witness :
    (runInteractive [] okBody 7 "verbose=5").verboseAfter = 7 :=
  verbose_restored_on_success [] okBody 7 "verbose=5" (.str "ran") rfl

/-- Induction for C9: the dispatch loop discards every coroutine, so its
observable trace is empty for every listener list and message. -/
theorem dispatchMessage_trace_empty (ls : List (Nat × Reaction)) (msg : Nat) :
    dispatchMessage ls msg = ⟨[], [], none⟩ := by
  induction ls with
  | nil => rfl
  | cons hd tl ih =>
      obtain ⟨i, r⟩ := hd
      simpa [dispatchMessage] using ih

/-- C9 (code bug): `dispatch_message` calls the `async` `Listener.react`
without awaiting it, so the coroutine is dropped and no react body ever
executes — no listener receives the event, no generic exception is caught
or logged, and a `NotImplementedError` can never re-propagate.  Awaiting
each coroutine in place (the behaviour the react body of eventbus.py is
written for) would deliver to every listener in registration order, log the
generic failure without stopping delivery, and let the not-implemented
signal escape — a trace the source's loop never produces. -/
theorem dispatch_drops_unawaited_reactions :
    (∀ (listeners : List (Nat × Reaction)) (msg : Nat),
        (dispatchMessage listeners msg).delivered = [] ∧
          (dispatchMessage listeners msg).logged = [] ∧
          (dispatchMessage listeners msg).raisedNotImplemented = none) ∧
      (dispatchMessageAwaited [(0, .ok), (1, .genericError), (2, .ok)]
          MessageCONNECTED).delivered = [0, 1, 2] ∧
      (dispatchMessageAwaited [(0, .ok), (1, .genericError), (2, .ok)]
          MessageCONNECTED).logged = [1] ∧
      (dispatchMessageAwaited [(0, .ok), (1, .notImplemented), (2, .ok)]
          MessageCONNECTED).raisedNotImplemented = some 1 ∧
      (dispatchMessageAwaited [(0, .ok), (1, .notImplemented), (2, .ok)]
          MessageCONNECTED).delivered = [0, 1] ∧
      (dispatchMessage [(0, .ok), (1, .genericError), (2, .ok)]
            MessageCONNECTED).delivered ≠
        (dispatchMessageAwaited [(0, .ok), (1, .genericError), (2, .ok)]
            MessageCONNECTED).delivered := by
  refine ⟨?_, rfl, rfl, rfl, rfl, ?_⟩
  · intro listeners msg
    rw [dispatchMessage_trace_empty]
    exact ⟨rfl, rfl, rfl⟩
  · rw [dispatchMessage_trace_empty,
      show (dispatchMessageAwaited [(0, .ok), (1, .genericError), (2, .ok)]
        MessageCONNECTED).delivered = [0, 1, 2] from rfl]
    simp

/-- Index lemma: a list of absent own-attributes yields `none` at every
index. -/
theorem getD_none_of_all_none (l : List (Option (List String))) (i : Nat)
    (h : ∀ o ∈ l, o = none) : l.getD i none = none := by
  induction l generalizing i with
  | nil => cases i <;> rfl
  | cons hd tl ih =>
      cases i with
      | zero => simpa using h hd (by simp)
      | succ j => simpa using ih j (fun o ho => h o (by simp [ho]))

/-- Inserting a key makes the dict contain it. -/
theorem keyInsert_mem (d : List String) (c : String) : c ∈ keyInsert d c := by
  by_cases h : c ∈ d <;> simp [keyInsert, h]

/-- C10: `_blacklisted_commands` is one class-level dict shared by every
instance.  Because `__init__` assigns no own attribute, blocking a command
through any instance `i` makes `is_blacklisted` true through any other
instance `j` — including an instance constructed after the block. -/
theorem blacklist_class_level_shared (w : BlackWorld) (i j : Nat)
    (c : String) (h : ∀ o ∈ w.instOwn, o = none) :
    isBlacklisted (addBlockedCommand w i c) j c = true ∧
      isBlacklisted (blackNewInstance (addBlockedCommand w i c)).1
        (blackNewInstance (addBlockedCommand w i c)).2 c = true := by
  have hi : w.instOwn.getD i none = none := getD_none_of_all_none _ _ h
  have hw : addBlockedCommand w i c =
      { w with classDict := keyInsert w.classDict c } := by
    unfold addBlockedCommand
    rw [hi]
  rw [hw]
  constructor
  · have hj := getD_none_of_all_none w.instOwn j h
    rw [List.getD_eq_getElem?_getD] at hj
    simp [isBlacklisted, blackAttr, hj, keyInsert_mem]
  · have hnew : (w.instOwn ++ [none]).getD w.instOwn.length none = none := by
      simp [List.getD]
    simp [isBlacklisted, blackAttr, blackNewInstance, hnew, keyInsert_mem]

/-- C10 witness: two pre-existing instances and one constructed after the
block all see the command blocked through the shared class dict. -/
theorem blacklist_class_level_shared_witness :
    isBlacklisted (addBlockedCommand ⟨[], [none, none]⟩ 0 "rm") 1 "rm" =
        true ∧
      isBlacklisted
        (blackNewInstance (addBlockedCommand ⟨[], [none, none]⟩ 0 "rm")).1
        (blackNewInstance (addBlockedCommand ⟨[], [none, none]⟩ 0 "rm")).2
        "rm" = true :=
  blacklist_class_level_shared ⟨[], [none, none]⟩ 0 1 "rm" (by simp)

end Nubia
